import Mathlib

/-!
# Verification of the civic-backend compass scoring and matchmaking engine

Shallow embedding of `src/compass/compass.service.ts` and
`src/matchmaking/matchmaking.service.ts`.

Modelling conventions:
* JavaScript numbers are idealized as exact arithmetic.  The compass
  calculator and snapshot differ perform only field arithmetic, so they are
  embedded over `ℚ` (keeping every definition executable); the match scorer
  uses `Math.sqrt`, so the matchmaking module is embedded over `ℝ`.
* A JS `Record<string, number>` is modelled as an association list
  `List (String × _)`; `rec[key] ?? 0` becomes `(l.lookup key).getD 0`.
* `Array.prototype.sort` (guaranteed stable by ECMAScript) is modelled by
  `List.insertionSort` with the descending comparator, which is stable.
-/

/-- The fixed 8-axis enumeration `AXES` of `compass.service.ts` /
`matchmaking.service.ts`. -/
inductive Axis : Type
  | economy
  | governance
  | civil_liberties
  | society
  | diplomacy
  | environment
  | justice
  | technology
deriving DecidableEq, Repr, Fintype

/-- The string key each axis uses in weight vectors / dimension records. -/
def axisStr : Axis → String
  | .economy => "economy"
  | .governance => "governance"
  | .civil_liberties => "civil_liberties"
  | .society => "society"
  | .diplomacy => "diplomacy"
  | .environment => "environment"
  | .justice => "justice"
  | .technology => "technology"

/-- The canonical ordered list `AXES` (source lines 4-13 of both services). -/
def AXES : List Axis :=
  [.economy, .governance, .civil_liberties, .society, .diplomacy,
   .environment, .justice, .technology]

/-- The `AXIS_LABELS` of `compass.service.ts`. -/
def AXIS_LABELS : Axis → String
  | .economy => "Economy"
  | .governance => "Governance"
  | .civil_liberties => "Civil Liberties"
  | .society => "Society"
  | .diplomacy => "Diplomacy"
  | .environment => "Environment"
  | .justice => "Justice"
  | .technology => "Technology"

/-! ## Compass calculator (`calculateCompass`, compass.service.ts lines 36-76)

A stored `UserResponse` joined with its question is modelled by the data the
calculator reads from it: the question's weight vector (string-keyed, since
the source reads it as an untyped `Record<string, number>`) and the answer
value. -/

/-- One response row as read by `calculateCompass`: the joined question's
`weights` record and the response's `answerValue`. -/
structure Response where
  weights : List (String × ℚ)
  answerValue : ℚ

/-- The (answerValue, weight) pairs that the `calculateCompass` loop
(lines 53-62) accumulates into `axisScores[A]`: one per weight-vector entry
whose key is axis `A`'s string (entries with other keys hit a different
axis bucket or — for unknown keys — fail the `axisScores[axis]` guard). -/
def axisEntries (rs : List Response) (A : Axis) : List (ℚ × ℚ) :=
  rs.flatMap fun r =>
    (r.weights.filter fun e => e.1 == axisStr A).map fun e => (r.answerValue, e.2)

/-- The `axisScores[A].total`: accumulated `response.answerValue * weight`. -/
def axisTotal (rs : List Response) (A : Axis) : ℚ :=
  ((axisEntries rs A).map fun p => p.1 * p.2).sum

/-- The `axisScores[A].weightSum`: accumulated `Math.abs(weight)`. -/
def axisWeightSum (rs : List Response) (A : Axis) : ℚ :=
  ((axisEntries rs A).map fun p => |p.2|).sum

/-- The `axisScores[A].count`: incremented once per accumulated entry. -/
def axisCount (rs : List Response) (A : Axis) : ℕ :=
  (axisEntries rs A).length

/-- The `Math.max(-1, Math.min(1, x))` (line 70). -/
def clampQ (x : ℚ) : ℚ :=
  max (-1) (min 1 x)

/-- The `dimensions[axis]` (lines 67-73): clamped weighted average when
`weightSum > 0`, else `0`. -/
def dimensions (rs : List Response) (A : Axis) : ℚ :=
  if 0 < axisWeightSum rs A then clampQ (axisTotal rs A / axisWeightSum rs A) else 0

/-- The `confidence[axis]` (line 72). -/
def confidence (rs : List Response) (A : Axis) : ℕ :=
  axisCount rs A

/-- The `calculateCompass`: the returned `{ dimensions, confidence }` pair. -/
def calculateCompass (rs : List Response) : (Axis → ℚ) × (Axis → ℕ) :=
  (dimensions rs, confidence rs)

/-- Spec-side reading of `total_A` ("sum of `answerValue * weight_A` over
responses whose weight vector includes axis A"): one contribution per
response, through the response's weight for `A`. -/
def specTotal (rs : List Response) (A : Axis) : ℚ :=
  (rs.map fun r =>
    match r.weights.lookup (axisStr A) with
    | some w => r.answerValue * w
    | none => 0).sum

/-- Spec-side reading of `weightSum_A` ("sum of `|weight_A|` over responses
whose weight vector includes axis A"). -/
def specWeightSum (rs : List Response) (A : Axis) : ℚ :=
  (rs.map fun r =>
    match r.weights.lookup (axisStr A) with
    | some w => |w|
    | none => 0).sum

/-- Whether a string is one of the eight fixed axis keys — the
`axisScores[axis]` truthiness guard on line 56. -/
def validAxisKey (s : String) : Bool :=
  AXES.any fun ax => axisStr ax == s

/-- Drop the weight-vector entries whose key is not a fixed axis key. -/
def stripUnknownKeys (rs : List Response) : List Response :=
  rs.map fun r => { r with weights := r.weights.filter fun e => validAxisKey e.1 }

/-! ## Snapshot differ (`diffSnapshots`, compass.service.ts lines 199-254) -/

/-- The `dims[axis] ?? 0` on a stored dimensions record. -/
def getDimQ (d : List (String × ℚ)) (A : Axis) : ℚ :=
  (d.lookup (axisStr A)).getD 0

/-- A stored compass snapshot, as read by `diffSnapshots`. -/
structure SnapshotQ where
  id : String
  snapshotName : String
  dimensions : List (String × ℚ)

/-- The `delta = to - from` for one axis (line 218). -/
def snapDelta (dims1 dims2 : List (String × ℚ)) (A : Axis) : ℚ :=
  getDimQ dims2 A - getDimQ dims1 A

/-- The `parseFloat(x.toFixed(3))`: round to 3 decimal places. -/
def round3Q (x : ℚ) : ℚ :=
  (round (x * 1000) : ℚ) / 1000

/-- The accumulated `totalShift` after rounding (lines 220, 245). -/
def totalShiftOf (dims1 dims2 : List (String × ℚ)) : ℚ :=
  round3Q ((AXES.map fun ax => |snapDelta dims1 dims2 ax|).sum)

/-- One step of the `AXES.reduce` on lines 224-228. -/
def biggestStep (dims1 dims2 : List (String × ℚ)) (mx ax : Axis) : Axis :=
  if |snapDelta dims1 dims2 ax| > |snapDelta dims1 dims2 mx| then ax else mx

/-- The `biggestShift`: `AXES.reduce(..., AXES[0])` — fold over all of `AXES`
starting from `AXES[0] = economy`. -/
def biggestShiftAxis (dims1 dims2 : List (String × ℚ)) : Axis :=
  AXES.foldl (biggestStep dims1 dims2) Axis.economy

/-- The numeric payload of the `diffSnapshots` return value (the
`changeLog` display string of the summary is outside the claims' scope). -/
structure DiffResult where
  deltas : Axis → ℚ × ℚ × ℚ
  totalShift : ℚ
  biggestAxis : Axis
  biggestLabel : String
  biggestDelta : ℚ

/-- The `diffSnapshots` on two resolved snapshots (the `null` early return for
an unresolvable id is upstream of this computation). -/
def diffSnapshots (s1 s2 : SnapshotQ) : DiffResult :=
  { deltas := fun ax =>
      (getDimQ s1.dimensions ax, getDimQ s2.dimensions ax,
        snapDelta s1.dimensions s2.dimensions ax)
    totalShift := totalShiftOf s1.dimensions s2.dimensions
    biggestAxis := biggestShiftAxis s1.dimensions s2.dimensions
    biggestLabel := AXIS_LABELS (biggestShiftAxis s1.dimensions s2.dimensions)
    biggestDelta := snapDelta s1.dimensions s2.dimensions
      (biggestShiftAxis s1.dimensions s2.dimensions) }

/-! ## Match scorer (`matchmaking.service.ts` lines 173-266)

The scorer reads two `Record<string, number>` dimension records with
`a[axis] ?? 0`; the records are association lists over `ℝ` because the
scores involve `Math.sqrt`. -/

/-- A compass dimensions record as consumed by the matchmaking service. -/
def DimsR : Type := List (String × ℝ)

/-- The `rec[key] ?? 0` on a dimensions record. -/
noncomputable def getDim (d : DimsR) (key : String) : ℝ :=
  (d.lookup key).getD 0

/-- The three match modes (`MatchMode`, line 15). -/
inductive MatchMode : Type
  | mirror
  | challenger
  | complement
deriving DecidableEq, Repr

/-- The `sumSq` accumulated by `mirrorScore` (lines 201-205):
`diff = (a[axis] ?? 0) - (b[axis] ?? 0)` squared, over all 8 axes. -/
noncomputable def mirrorSumSq (a b : DimsR) : ℝ :=
  (AXES.map fun ax => (getDim a (axisStr ax) - getDim b (axisStr ax)) ^ 2).sum

/-- The `maxDistance = Math.sqrt(AXES.length * 4)` (line 207). -/
noncomputable def maxDistanceR : ℝ :=
  Real.sqrt ((AXES.length : ℝ) * 4)

/-- The `mirrorScore` (lines 197-209). -/
noncomputable def mirrorScore (a b : DimsR) : ℝ :=
  max 0 (1 - Real.sqrt (mirrorSumSq a b) / maxDistanceR)

/-- The `sumSq` accumulated by `challengerScore` (lines 220-225):
`diff = -(a[axis] ?? 0) - (b[axis] ?? 0)` squared. -/
noncomputable def challengerSumSq (a b : DimsR) : ℝ :=
  (AXES.map fun ax => (-(getDim a (axisStr ax)) - getDim b (axisStr ax)) ^ 2).sum

/-- The `challengerScore` (lines 216-229). -/
noncomputable def challengerScore (a b : DimsR) : ℝ :=
  max 0 (1 - Real.sqrt (challengerSumSq a b) / maxDistanceR)

/-- The `coreAxes` of `complementScore` (line 242). -/
def coreAxes : List Axis := [.governance, .justice]

/-- The `operationalAxes` of `complementScore` (line 243). -/
def operationalAxes : List Axis :=
  [.economy, .civil_liberties, .society, .diplomacy, .environment, .technology]

/-- The `coreSumSq` (lines 246-250). -/
noncomputable def coreSumSq (a b : DimsR) : ℝ :=
  (coreAxes.map fun ax => (getDim a (axisStr ax) - getDim b (axisStr ax)) ^ 2).sum

/-- The `maxCoreDistance = Math.sqrt(coreAxes.length * 4)` (line 252). -/
noncomputable def maxCoreDistance : ℝ :=
  Real.sqrt ((coreAxes.length : ℝ) * 4)

/-- The `coreAlignment = 1 - coreDistance / maxCoreDistance` (line 253). -/
noncomputable def coreAlignment (a b : DimsR) : ℝ :=
  1 - Real.sqrt (coreSumSq a b) / maxCoreDistance

/-- The `opSumSq` (lines 256-260). -/
noncomputable def opSumSq (a b : DimsR) : ℝ :=
  (operationalAxes.map fun ax => (getDim a (axisStr ax) - getDim b (axisStr ax)) ^ 2).sum

/-- The `maxOpDistance = Math.sqrt(operationalAxes.length * 4)` (line 262). -/
noncomputable def maxOpDistance : ℝ :=
  Real.sqrt ((operationalAxes.length : ℝ) * 4)

/-- The `operationalDiversity = opDistance / maxOpDistance` (line 263). -/
noncomputable def operationalDiversity (a b : DimsR) : ℝ :=
  Real.sqrt (opSumSq a b) / maxOpDistance

/-- The `complementScore` (lines 238-266). -/
noncomputable def complementScore (a b : DimsR) : ℝ :=
  0.6 * coreAlignment a b + 0.4 * operationalDiversity a b

/-- The spec's "closeness" transform (`max(0, 1 - distance/maxDistance)`)
restricted to the core subset, following the spec's words — to be compared
with the source's `coreAlignment`, which omits the `max 0` clamp. -/
noncomputable def specCoreCloseness (a b : DimsR) : ℝ :=
  max 0 (1 - Real.sqrt (coreSumSq a b) / maxCoreDistance)

/-- The `calculateScore` (lines 177-190). -/
noncomputable def calculateScore (userDims candidateDims : DimsR) (mode : MatchMode) : ℝ :=
  match mode with
  | .mirror => mirrorScore userDims candidateDims
  | .challenger => challengerScore userDims candidateDims
  | .complement => complementScore userDims candidateDims

/-! ## Matchmaking orchestrator (`findMatches`, lines 37-122, and
`getLatestCompass`, lines 128-171)

The Prisma-backed reads are modelled by a `DB` record of pure lookup
functions; each service method reads from it exactly where the source
issues the corresponding query. -/

/-- One response row as read by the live-calculation fallback of
`getLatestCompass` (lines 140-160). -/
structure ResponseR where
  weights : List (String × ℝ)
  answerValue : ℝ

/-- The (answerValue, weight) pairs accumulated into `axisScores[A]` by the
loop on lines 152-160 (same shape as the compass service's loop). -/
noncomputable def axisEntriesR (rs : List ResponseR) (A : Axis) : List (ℝ × ℝ) :=
  rs.flatMap fun r =>
    (r.weights.filter fun e => e.1 == axisStr A).map fun e => (r.answerValue, e.2)

/-- The `axisScores[A].total` of the live fallback. -/
noncomputable def axisTotalR (rs : List ResponseR) (A : Axis) : ℝ :=
  ((axisEntriesR rs A).map fun p => p.1 * p.2).sum

/-- The `axisScores[A].weightSum` of the live fallback. -/
noncomputable def axisWeightSumR (rs : List ResponseR) (A : Axis) : ℝ :=
  ((axisEntriesR rs A).map fun p => |p.2|).sum

/-- The `Math.max(-1, Math.min(1, x))` (line 166). -/
noncomputable def clampR (x : ℝ) : ℝ :=
  max (-1) (min 1 x)

/-- The `dimensions[axis]` of the live fallback (lines 162-168). -/
noncomputable def liveDimVal (rs : List ResponseR) (A : Axis) : ℝ :=
  if 0 < axisWeightSumR rs A then clampR (axisTotalR rs A / axisWeightSumR rs A) else 0

/-- The `dimensions` record built by the live fallback: one entry per axis
of `AXES`. -/
noncomputable def liveDims (rs : List ResponseR) : DimsR :=
  AXES.map fun ax => (axisStr ax, liveDimVal rs ax)

/-- A user row, restricted to the fields `findMatches` selects. -/
structure UserRec where
  id : String
  walletAddress : String
  displayName : Option String
  sharingMode : String
  matchThreshold : Option ℝ

/-- A `connectionRequest` row, restricted to the fields `findMatches`
selects. -/
structure ConnReq where
  id : String
  senderId : String
  receiverId : String
  status : String

/-- The storage reads issued by the matchmaking service, as pure lookups:
`latestSnapshot u` is the `compassEntry.findFirst` (newest-first) result for
user `u`, `responses u` the user's `userResponse.findMany` rows. -/
structure DB where
  users : List UserRec
  latestSnapshot : String → Option DimsR
  responses : String → List ResponseR
  connections : List ConnReq

/-- The `getLatestCompass` (lines 128-171): latest snapshot first, else live
calculation from responses, else `null`. -/
noncomputable def getLatestCompass (db : DB) (userId : String) : Option DimsR :=
  match db.latestSnapshot userId with
  | some dims => some dims
  | none =>
    if (db.responses userId).isEmpty then none
    else some (liveDims (db.responses userId))

/-- The `maskAddress` (lines 271-274). -/
def maskAddress (address : String) : String :=
  if address.length ≤ 10 then address
  else address.take 6 ++ "..." ++ address.drop (address.length - 4)

/-- The `connectionMap` lookup for one candidate (lines 70-90): among the
requester's connection rows, the `Map.set` loop leaves the **last** row
whose other party is the candidate, tagged with `(id, status, direction)`. -/
def connectionFor (db : DB) (userId cid : String) : Option (String × String × String) :=
  ((db.connections.filter fun c => c.senderId == userId || c.receiverId == userId).filterMap
    fun c =>
      if (if c.senderId == userId then c.receiverId else c.senderId) == cid then
        some (c.id, c.status, if c.senderId == userId then "sent" else "received")
      else none).getLast?

/-- A `MatchResult` (lines 17-27). -/
structure MatchResult where
  userId : String
  walletAddress : String
  displayName : Option String
  dimensions : DimsR
  score : ℝ
  mode : MatchMode
  connectionStatus : Option String
  connectionId : Option String
  connectionDirection : Option String

/-- The `parseFloat(score.toFixed(3))` (line 110): round to 3 decimals. -/
noncomputable def round3 (x : ℝ) : ℝ :=
  (round (x * 1000) : ℤ) / 1000

/-- The effective threshold
`threshold ?? requestingUser?.matchThreshold ?? 0` (lines 48-52). -/
noncomputable def effectiveThreshold (db : DB) (userId : String) (threshold : Option ℝ) : ℝ :=
  threshold.getD (((db.users.find? fun u => u.id == userId).bind
    fun u => u.matchThreshold).getD 0)

/-- The discoverable candidate pool (lines 55-65): every user other than
the requester whose `sharingMode` is `PUBLIC` or `SELECTIVE`. -/
def discoverableUsers (db : DB) (userId : String) : List UserRec :=
  db.users.filter fun u =>
    u.id != userId && (u.sharingMode == "PUBLIC" || u.sharingMode == "SELECTIVE")

/-- The per-candidate body of the loop on lines 95-117: resolve the
candidate's compass (`continue` when it is `null`), score it, and keep it
as a `MatchResult` when `score >= minThreshold`. -/
noncomputable def scoreCandidate (db : DB) (userId : String) (userCompass : DimsR)
    (mode : MatchMode) (minThreshold : ℝ) (c : UserRec) : Option MatchResult :=
  match getLatestCompass db c.id with
  | none => none
  | some compass =>
    if minThreshold ≤ calculateScore userCompass compass mode then
      some
        { userId := c.id
          walletAddress :=
            if (connectionFor db userId c.id).map (fun p => p.2.1) = some "ACCEPTED" then
              c.walletAddress
            else maskAddress c.walletAddress
          displayName := c.displayName
          dimensions := compass
          score := round3 (calculateScore userCompass compass mode)
          mode := mode
          connectionStatus := (connectionFor db userId c.id).map fun p => p.2.1
          connectionId := (connectionFor db userId c.id).map fun p => p.1
          connectionDirection := (connectionFor db userId c.id).map fun p => p.2.2 }
    else none

/-- The `candidates` list accumulated in pool order by the loop. -/
noncomputable def candidateResults (db : DB) (userId : String) (userCompass : DimsR)
    (mode : MatchMode) (minThreshold : ℝ) : List MatchResult :=
  (discoverableUsers db userId).filterMap (scoreCandidate db userId userCompass mode minThreshold)

/-- The descending comparator of `candidates.sort((a, b) => b.score - a.score)`:
`a` may stay before `b` iff `b.score ≤ a.score`. -/
def byScoreDesc (r1 r2 : MatchResult) : Prop :=
  r2.score ≤ r1.score

noncomputable instance : DecidableRel byScoreDesc :=
  fun r1 r2 => Real.decidableLE r2.score r1.score

instance : IsTotal MatchResult byScoreDesc :=
  ⟨fun r1 r2 => le_total r2.score r1.score⟩

instance : IsTrans MatchResult byScoreDesc :=
  ⟨fun _ _ _ h1 h2 => le_trans h2 h1⟩

/-- The `candidates.sort((a, b) => b.score - a.score)`: ECMAScript guarantees a
stable sort, modelled by the (stable) insertion sort with the descending
comparator. -/
noncomputable def sortByScoreDesc (l : List MatchResult) : List MatchResult :=
  l.insertionSort byScoreDesc

/-- The `findMatches` (lines 37-122). -/
noncomputable def findMatches (db : DB) (userId : String) (mode : MatchMode)
    (limit : ℕ) (threshold : Option ℝ) : List MatchResult :=
  match getLatestCompass db userId with
  | none => []
  | some userCompass =>
    if (discoverableUsers db userId).isEmpty then []
    else
      (sortByScoreDesc (candidateResults db userId userCompass mode
        (effectiveThreshold db userId threshold))).take limit

/-! ## Concrete inputs used by the example theorems below -/

/-- The spec's concrete scenario: two responses on economy with weights
`0.8` and `-0.4`, both answered `1`. -/
def scenarioResponses : List Response :=
  [{ weights := [("economy", 0.8)], answerValue := 1 },
   { weights := [("economy", -0.4)], answerValue := 1 }]

/-- A single response whose question loads on economy with weight `0`. -/
def zeroWeightResponses : List Response :=
  [{ weights := [("economy", 0)], answerValue := 1 }]

/-- A single response whose question's weight vector uses a key outside the
fixed 8-axis set. -/
def unknownKeyResponses : List Response :=
  [{ weights := [("freedom", 1)], answerValue := 1 }]

/-- An all-zero dimensions record over the 8 axes. -/
noncomputable def zeroDimsR : DimsR :=
  AXES.map fun ax => (axisStr ax, (0 : ℝ))

/-- A dimensions record whose only entry puts
`sqrt 32 * 0.1204` on economy; its mirror score against `zeroDimsR` is
exactly `0.8796`. -/
noncomputable def nearDimsB : DimsR :=
  [("economy", Real.sqrt 32 * (1204 / 10000))]

/-- Like `nearDimsB` but with `sqrt 32 * 0.1206` on economy; its mirror
score against `zeroDimsR` is exactly `0.8794`. -/
noncomputable def nearDimsC : DimsR :=
  [("economy", Real.sqrt 32 * (1206 / 10000))]

/-- A database with no users, snapshots or responses at all. -/
def dbEmpty : DB :=
  { users := []
    latestSnapshot := fun _ => none
    responses := fun _ => []
    connections := [] }

/-- The requesting user of the two-user example database. -/
def userU1 : UserRec :=
  { id := "u1", walletAddress := "0xAAAA111122223333", displayName := none,
    sharingMode := "PRIVATE", matchThreshold := none }

/-- The discoverable candidate of the two-user example database. -/
def userU2 : UserRec :=
  { id := "u2", walletAddress := "0xBBBB111122223333", displayName := some "Bob",
    sharingMode := "PUBLIC", matchThreshold := none }

/-- A database with a requester `u1` and one discoverable candidate `u2`,
both with an all-zero latest snapshot. -/
noncomputable def dbPair : DB :=
  { users := [userU1, userU2]
    latestSnapshot := fun uid =>
      if uid == "u1" || uid == "u2" then some zeroDimsR else none
    responses := fun _ => []
    connections := [] }

/-- Two snapshots used to exercise `diffSnapshots`: the second moved
economy by `0.25` and governance by `-0.125`. -/
def snapFrom : SnapshotQ :=
  { id := "s1", snapshotName := "first", dimensions := [("economy", 1/2)] }

/-- See `snapFrom`. -/
def snapTo : SnapshotQ :=
  { id := "s2", snapshotName := "second",
    dimensions := [("economy", 3/4), ("governance", -1/8)] }


/-! ## Helper lemmas: the compass calculator -/

lemma filter_key_eq_nil {l : List (String × ℚ)} {k : String}
    (h : k ∉ l.map Prod.fst) : l.filter (fun e => e.1 == k) = [] := by
  rw [List.filter_eq_nil_iff]
  intro e he
  simp only [beq_iff_eq]
  intro heq
  exact h (heq ▸ List.mem_map_of_mem Prod.fst he)

lemma filter_key_of_nodup {l : List (String × ℚ)} {k : String}
    (h : (l.map Prod.fst).Nodup) :
    l.filter (fun e => e.1 == k) =
      (match l.lookup k with | some w => [(k, w)] | none => []) := by
  induction l with
  | nil => rfl
  | cons e t ih =>
    obtain ⟨k1, w1⟩ := e
    simp only [List.map_cons, List.nodup_cons] at h
    by_cases hk : k1 = k
    · subst hk
      have ht : t.filter (fun e => e.1 == k1) = [] := filter_key_eq_nil h.1
      simp [List.filter_cons, List.lookup, ht]
    · have hk' : (k == k1) = false := by
        simp only [beq_eq_false_iff_ne, ne_eq]
        exact fun hc => hk hc.symm
      have hk'' : ((k1, w1).1 == k) = false := by
        simp only [beq_eq_false_iff_ne, ne_eq]
        exact hk
      simp [List.filter_cons, List.lookup, hk', hk'', ih h.2]

lemma axisEntries_cons (r : Response) (t : List Response) (A : Axis) :
    axisEntries (r :: t) A =
      ((r.weights.filter fun e => e.1 == axisStr A).map fun e => (r.answerValue, e.2))
        ++ axisEntries t A := by
  simp [axisEntries, List.flatMap_cons]

lemma axisTotal_eq_specTotal {rs : List Response}
    (h : ∀ r ∈ rs, (r.weights.map Prod.fst).Nodup) (A : Axis) :
    axisTotal rs A = specTotal rs A := by
  induction rs with
  | nil => rfl
  | cons r t ih =>
    have hr := h r (List.mem_cons_self r t)
    have ht := fun x hx => h x (List.mem_cons_of_mem _ hx)
    have h1 : axisTotal (r :: t) A =
        ((r.weights.filter fun e => e.1 == axisStr A).map
          fun e => r.answerValue * e.2).sum + axisTotal t A := by
      simp only [axisTotal, axisEntries_cons, List.map_append, List.sum_append,
        List.map_map]
      rfl
    rw [h1, filter_key_of_nodup hr, ih ht]
    simp only [specTotal, List.map_cons, List.sum_cons]
    cases r.weights.lookup (axisStr A) <;> simp

lemma axisWeightSum_eq_specWeightSum {rs : List Response}
    (h : ∀ r ∈ rs, (r.weights.map Prod.fst).Nodup) (A : Axis) :
    axisWeightSum rs A = specWeightSum rs A := by
  induction rs with
  | nil => rfl
  | cons r t ih =>
    have hr := h r (List.mem_cons_self r t)
    have ht := fun x hx => h x (List.mem_cons_of_mem _ hx)
    have h1 : axisWeightSum (r :: t) A =
        ((r.weights.filter fun e => e.1 == axisStr A).map fun e => |e.2|).sum
          + axisWeightSum t A := by
      simp only [axisWeightSum, axisEntries_cons, List.map_append, List.sum_append,
        List.map_map]
      rfl
    rw [h1, filter_key_of_nodup hr, ih ht]
    simp only [specWeightSum, List.map_cons, List.sum_cons]
    cases r.weights.lookup (axisStr A) <;> simp

/-! ## C1: the per-axis score formula and the two-response scenario -/

/-- C1: for every response list (with well-formed weight records, i.e.
distinct keys as in a JS object), each axis score is
`clamp(total_A / weightSum_A, -1, 1)` when `weightSum_A > 0` and `0`
otherwise, where `total_A` sums `answerValue * weight_A` and `weightSum_A`
sums `|weight_A|` over the responses whose weight vector includes axis `A`;
and the spec's concrete scenario (economy weights `0.8` and `-0.4`, both
answers `1`) scores `0.4 / 1.2` on economy with confidence `2`. -/
theorem calculateCompass_weighted_average (rs : List Response)
    (h : ∀ r ∈ rs, (r.weights.map Prod.fst).Nodup) :
    (∀ A : Axis, (calculateCompass rs).1 A =
      if 0 < specWeightSum rs A then
        clampQ (specTotal rs A / specWeightSum rs A)
      else 0) ∧
    (calculateCompass scenarioResponses).1 Axis.economy = 0.4 / 1.2 ∧
    (calculateCompass scenarioResponses).2 Axis.economy = 2 := by
  refine ⟨fun A => ?_, ?_, ?_⟩
  · show dimensions rs A = _
    rw [dimensions, axisTotal_eq_specTotal h, axisWeightSum_eq_specWeightSum h]
  · show dimensions scenarioResponses Axis.economy = 0.4 / 1.2
    have hw : axisWeightSum scenarioResponses Axis.economy = 1.2 := by
      norm_num [axisWeightSum, axisEntries, scenarioResponses, axisStr, abs_of_nonneg]
    have ht : axisTotal scenarioResponses Axis.economy = 0.4 := by
      norm_num [axisTotal, axisEntries, scenarioResponses, axisStr]
    rw [dimensions, hw, ht, if_pos (by norm_num), clampQ,
      min_eq_right (by norm_num), max_eq_right (by norm_num)]
  · show confidence scenarioResponses Axis.economy = 2
    norm_num [confidence, axisCount, axisEntries, scenarioResponses, axisStr]

/-- Witness: the C1 theorem applied to the spec's concrete scenario. -/
theorem calculateCompass_weighted_average_witness :
    (∀ r ∈ scenarioResponses, (r.weights.map Prod.fst).Nodup) ∧
    (calculateCompass scenarioResponses).1 Axis.economy = 0.4 / 1.2 ∧
    (calculateCompass scenarioResponses).2 Axis.economy = 2 :=
  ⟨by decide, (calculateCompass_weighted_average scenarioResponses (by decide)).2⟩

/-! ## C3: what the confidence count actually detects -/

lemma axisEntries_eq_nil_iff (rs : List Response) (A : Axis) :
    axisEntries rs A = [] ↔ ∀ r ∈ rs, ∀ e ∈ r.weights, e.1 ≠ axisStr A := by
  simp only [axisEntries, List.flatMap_eq_nil_iff, List.map_eq_nil_iff,
    List.filter_eq_nil_iff, beq_iff_eq]

/-- C3 counterexample: a single response whose weight vector carries weight
`0` on economy.  No response carries a non-zero weight on economy, yet the
computed confidence for economy is `1`, not `0` — the count increments for
every weight-vector entry whose key is a fixed axis, regardless of the
weight's value. -/
theorem confidence_counterexample :
    (¬ ∃ r ∈ zeroWeightResponses, ∃ e ∈ r.weights,
      e.1 = axisStr Axis.economy ∧ e.2 ≠ 0) ∧
    (calculateCompass zeroWeightResponses).2 Axis.economy ≠ 0 := by
  constructor
  · rintro ⟨r, hr, e, he, hkey, hw⟩
    simp only [zeroWeightResponses, List.mem_singleton] at hr
    subst hr
    simp only [List.mem_singleton] at he
    subst he
    exact hw rfl
  · show confidence zeroWeightResponses Axis.economy ≠ 0
    norm_num [confidence, axisCount, axisEntries, zeroWeightResponses, axisStr]

/-- C3 amended: the confidence count for axis `A` is `0` iff no response's
weight vector includes axis `A` as a key at all (a zero-valued weight entry
still counts); and whenever the confidence is `0` the axis score is exactly
`0`. -/
theorem confidence_zero_iff (rs : List Response) (A : Axis) :
    ((calculateCompass rs).2 A = 0 ↔
      ∀ r ∈ rs, ∀ e ∈ r.weights, e.1 ≠ axisStr A) ∧
    ((calculateCompass rs).2 A = 0 → (calculateCompass rs).1 A = 0) := by
  have hiff : confidence rs A = 0 ↔ ∀ r ∈ rs, ∀ e ∈ r.weights, e.1 ≠ axisStr A := by
    rw [confidence, axisCount, List.length_eq_zero]
    exact axisEntries_eq_nil_iff rs A
  refine ⟨hiff, fun h0 => ?_⟩
  have hnil : axisEntries rs A = [] := by
    rw [← List.length_eq_zero]
    exact h0
  show dimensions rs A = 0
  rw [dimensions, axisWeightSum, hnil]
  simp

/-- Witness: the C3 amended theorem applied to the empty response list. -/
theorem confidence_zero_iff_witness :
    (((calculateCompass ([] : List Response)).2 Axis.economy = 0 ↔
      ∀ r ∈ ([] : List Response), ∀ e ∈ r.weights, e.1 ≠ axisStr Axis.economy) ∧
    ((calculateCompass ([] : List Response)).2 Axis.economy = 0 →
      (calculateCompass ([] : List Response)).1 Axis.economy = 0)) ∧
    (calculateCompass ([] : List Response)).1 Axis.economy = 0 :=
  ⟨confidence_zero_iff [] Axis.economy,
    (confidence_zero_iff [] Axis.economy).2 rfl⟩

/-! ## C7: unknown axis keys are silently ignored, not rejected -/

lemma validAxisKey_axisStr (A : Axis) : validAxisKey (axisStr A) = true := by
  cases A <;> rfl

lemma weights_filter_strip (w : List (String × ℚ)) (A : Axis) :
    (w.filter fun e => validAxisKey e.1).filter (fun e => e.1 == axisStr A) =
      w.filter (fun e => e.1 == axisStr A) := by
  rw [List.filter_filter]
  apply List.filter_congr
  intro e _
  cases h : (e.1 == axisStr A)
  · simp
  · have : validAxisKey e.1 = true := by
      rw [beq_iff_eq.mp h]
      exact validAxisKey_axisStr A
    simp [this]

lemma axisEntries_strip (rs : List Response) (A : Axis) :
    axisEntries (stripUnknownKeys rs) A = axisEntries rs A := by
  induction rs with
  | nil => rfl
  | cons r t ih =>
    have h1 : stripUnknownKeys (r :: t) =
        { r with weights := r.weights.filter fun e => validAxisKey e.1 }
          :: stripUnknownKeys t := rfl
    rw [h1, axisEntries_cons, axisEntries_cons, ih]
    dsimp only
    rw [weights_filter_strip]

lemma unknownKey_axis_facts (A : Axis) :
    dimensions unknownKeyResponses A = 0 ∧ confidence unknownKeyResponses A = 0 := by
  have hnil : axisEntries unknownKeyResponses A = [] := by
    rw [axisEntries_eq_nil_iff]
    intro r hr e he
    simp only [unknownKeyResponses, List.mem_singleton] at hr
    subst hr
    simp only [List.mem_singleton] at he
    subst he
    cases A <;> simp [axisStr]
  constructor
  · rw [dimensions, axisWeightSum, hnil]
    simp
  · rw [confidence, axisCount, hnil]
    rfl

/-- C7 counterexample: a response whose weight vector uses the unknown key
`"freedom"` is processed without any `InvalidInput` signal — the
calculation is a total function that simply returns the very same output
as the empty response list (all-zero dimensions, all-zero confidence),
silently ignoring the entry instead of rejecting it. -/
theorem unknown_key_not_rejected :
    calculateCompass unknownKeyResponses = calculateCompass [] := by
  unfold calculateCompass
  simp only [Prod.mk.injEq]
  constructor
  · funext A
    rw [(unknownKey_axis_facts A).1]
    have hnil : axisEntries ([] : List Response) A = [] := rfl
    rw [dimensions, axisWeightSum, hnil]
    simp
  · funext A
    rw [(unknownKey_axis_facts A).2]
    rfl

/-- C7 amended: weight-vector entries whose axis key is not in the fixed
8-axis set are silently ignored by `calculateCompass` — dropping them from
the input changes neither the dimensions nor the confidence counts, and no
error is signalled (the calculation is a total function). -/
theorem unknown_keys_ignored (rs : List Response) (A : Axis) :
    (calculateCompass (stripUnknownKeys rs)).1 A = (calculateCompass rs).1 A ∧
    (calculateCompass (stripUnknownKeys rs)).2 A = (calculateCompass rs).2 A := by
  constructor
  · show dimensions (stripUnknownKeys rs) A = dimensions rs A
    rw [dimensions, dimensions, axisWeightSum, axisWeightSum, axisTotal, axisTotal,
      axisEntries_strip]
  · show confidence (stripUnknownKeys rs) A = confidence rs A
    rw [confidence, confidence, axisCount, axisCount, axisEntries_strip]

/-! ## C6: the snapshot diff summary -/

lemma foldl_argmax_first (f : Axis → ℚ) :
    ∀ (l : List Axis) (acc : Axis),
      ∃ l1 l2,
        acc :: l = l1 ++ (l.foldl (fun mx ax => if f ax > f mx then ax else mx) acc) :: l2 ∧
        (∀ ax ∈ l1, f ax < f (l.foldl (fun mx ax => if f ax > f mx then ax else mx) acc)) ∧
        (∀ ax ∈ l2, f ax ≤ f (l.foldl (fun mx ax => if f ax > f mx then ax else mx) acc)) := by
  intro l
  induction l with
  | nil =>
    intro acc
    exact ⟨[], [], rfl, by simp, by simp⟩
  | cons b t ih =>
    intro acc
    simp only [List.foldl_cons]
    by_cases h : f b > f acc
    · rw [if_pos h]
      obtain ⟨l1, l2, heq, hlt, hle⟩ := ih b
      cases l1 with
      | nil =>
        rw [List.nil_append] at heq
        have h1 : b = t.foldl (fun mx ax => if f ax > f mx then ax else mx) b := by
          injection heq
        refine ⟨[acc], l2, ?_, ?_, hle⟩
        · rw [List.singleton_append, ← heq]
        · intro ax hax
          simp only [List.mem_singleton] at hax
          subst hax
          rw [← h1]
          exact h
      | cons hd t1 =>
        rw [List.cons_append] at heq
        have h1 : b = hd := by injection heq
        refine ⟨acc :: hd :: t1, l2, ?_, ?_, hle⟩
        · rw [List.cons_append, List.cons_append, ← heq]
        · intro ax hax
          rcases List.mem_cons.mp hax with rfl | hax'
          · have hb := hlt b (by rw [h1]; exact List.mem_cons_self hd t1)
            exact lt_trans h hb
          · exact hlt ax hax'
    · rw [if_neg h]
      obtain ⟨l1, l2, heq, hlt, hle⟩ := ih acc
      cases l1 with
      | nil =>
        rw [List.nil_append] at heq
        have h1 : acc = t.foldl (fun mx ax => if f ax > f mx then ax else mx) acc := by
          injection heq
        have h2 : t = l2 := by
          injection heq with hh1 hh2
        refine ⟨[], b :: t, ?_, by simp, ?_⟩
        · rw [List.nil_append, ← h1]
        · intro ax hax
          rcases List.mem_cons.mp hax with rfl | hax'
          · rw [← h1]
            exact le_of_not_lt h
          · rw [h2] at hax'
            exact hle ax hax'
      | cons hd t1 =>
        rw [List.cons_append] at heq
        have h1 : acc = hd := by injection heq
        refine ⟨acc :: b :: t1, l2, ?_, ?_, hle⟩
        · rw [List.cons_append, List.cons_append]
          congr 1
          congr 1
          injection heq with hh1 hh2
        · intro ax hax
          have hhd := hlt hd (List.mem_cons_self hd t1)
          have hacc : f acc <
              f (t.foldl (fun mx ax => if f ax > f mx then ax else mx) acc) := by
            nth_rewrite 1 [h1]
            exact hhd
          rcases List.mem_cons.mp hax with rfl | hax'
          · exact hacc
          rcases List.mem_cons.mp hax' with rfl | hax''
          · exact lt_of_le_of_lt (le_of_not_lt h) hacc
          · exact hlt ax (List.mem_cons_of_mem hd hax'')

lemma biggestShiftAxis_spec (d1 d2 : List (String × ℚ)) :
    ∃ l1 l2, AXES = l1 ++ biggestShiftAxis d1 d2 :: l2 ∧
      (∀ ax ∈ l1, |snapDelta d1 d2 ax| < |snapDelta d1 d2 (biggestShiftAxis d1 d2)|) ∧
      (∀ ax ∈ l2, |snapDelta d1 d2 ax| ≤ |snapDelta d1 d2 (biggestShiftAxis d1 d2)|) := by
  have hdef : biggestShiftAxis d1 d2 =
      AXES.foldl
        (fun mx ax =>
          if (fun a => |snapDelta d1 d2 a|) ax > (fun a => |snapDelta d1 d2 a|) mx
          then ax else mx)
        Axis.economy := rfl
  obtain ⟨l1, l2, heq, hlt, hle⟩ :=
    foldl_argmax_first (fun a => |snapDelta d1 d2 a|) AXES Axis.economy
  rw [hdef]
  cases l1 with
  | nil =>
    rw [List.nil_append] at heq
    have h1 : Axis.economy =
        AXES.foldl
          (fun mx ax =>
            if (fun a => |snapDelta d1 d2 a|) ax > (fun a => |snapDelta d1 d2 a|) mx
            then ax else mx)
          Axis.economy := by
      injection heq
    have h2 : AXES = l2 := by
      injection heq with hh1 hh2
    refine ⟨[], [.governance, .civil_liberties, .society, .diplomacy,
      .environment, .justice, .technology], ?_, by simp, ?_⟩
    · rw [List.nil_append, ← h1]
      rfl
    · intro ax hax
      refine hle ax ?_
      rw [← h2]
      exact List.mem_cons_of_mem _ hax
  | cons hd t1 =>
    rw [List.cons_append] at heq
    have h2 : AXES = t1 ++
        AXES.foldl
          (fun mx ax =>
            if (fun a => |snapDelta d1 d2 a|) ax > (fun a => |snapDelta d1 d2 a|) mx
            then ax else mx)
          Axis.economy :: l2 := by
      injection heq with hh1 hh2
    refine ⟨t1, l2, h2, ?_, hle⟩
    intro ax hax
    exact hlt ax (List.mem_cons_of_mem hd hax)

/-- C6: for every pair of resolved snapshots, the diff's `totalShift` is the
sum over the 8 axes of `|delta|` rounded to 3 decimals, and `biggestAxis` is
the axis of maximal `|delta|`, ties broken by canonical `AXES` order: all
axes strictly before it in `AXES` have strictly smaller `|delta|`, and all
axes after it have `|delta|` no larger. -/
theorem diffSnapshots_summary (s1 s2 : SnapshotQ) :
    (diffSnapshots s1 s2).totalShift =
      round3Q ((AXES.map fun ax => |snapDelta s1.dimensions s2.dimensions ax|).sum) ∧
    ∃ l1 l2,
      AXES = l1 ++ (diffSnapshots s1 s2).biggestAxis :: l2 ∧
      (∀ ax ∈ l1, |snapDelta s1.dimensions s2.dimensions ax| <
        |snapDelta s1.dimensions s2.dimensions ((diffSnapshots s1 s2).biggestAxis)|) ∧
      (∀ ax ∈ l2, |snapDelta s1.dimensions s2.dimensions ax| ≤
        |snapDelta s1.dimensions s2.dimensions ((diffSnapshots s1 s2).biggestAxis)|) :=
  ⟨rfl, biggestShiftAxis_spec s1.dimensions s2.dimensions⟩

/-- Witness: the C6 theorem applied to two concrete snapshots. -/
theorem diffSnapshots_summary_witness :
    (diffSnapshots snapFrom snapTo).totalShift =
      round3Q
        ((AXES.map fun ax => |snapDelta snapFrom.dimensions snapTo.dimensions ax|).sum) ∧
    ∃ l1 l2,
      AXES = l1 ++ (diffSnapshots snapFrom snapTo).biggestAxis :: l2 ∧
      (∀ ax ∈ l1, |snapDelta snapFrom.dimensions snapTo.dimensions ax| <
        |snapDelta snapFrom.dimensions snapTo.dimensions
          ((diffSnapshots snapFrom snapTo).biggestAxis)|) ∧
      (∀ ax ∈ l2, |snapDelta snapFrom.dimensions snapTo.dimensions ax| ≤
        |snapDelta snapFrom.dimensions snapTo.dimensions
          ((diffSnapshots snapFrom snapTo).biggestAxis)|) :=
  diffSnapshots_summary snapFrom snapTo

/-! ## C9: all three scoring modes are symmetric -/

lemma mirrorSumSq_symm (a b : DimsR) : mirrorSumSq a b = mirrorSumSq b a := by
  unfold mirrorSumSq
  exact congrArg List.sum (List.map_congr_left fun ax _ => by ring)

lemma challengerSumSq_symm (a b : DimsR) : challengerSumSq a b = challengerSumSq b a := by
  unfold challengerSumSq
  exact congrArg List.sum (List.map_congr_left fun ax _ => by ring)

lemma coreSumSq_symm (a b : DimsR) : coreSumSq a b = coreSumSq b a := by
  unfold coreSumSq
  exact congrArg List.sum (List.map_congr_left fun ax _ => by ring)

lemma opSumSq_symm (a b : DimsR) : opSumSq a b = opSumSq b a := by
  unfold opSumSq
  exact congrArg List.sum (List.map_congr_left fun ax _ => by ring)

/-- C9: each of the three match-scoring modes gives the same score with its
two arguments swapped. -/
theorem matchScores_symmetric (a b : DimsR) :
    mirrorScore a b = mirrorScore b a ∧
    challengerScore a b = challengerScore b a ∧
    complementScore a b = complementScore b a := by
  refine ⟨?_, ?_, ?_⟩
  · unfold mirrorScore
    rw [mirrorSumSq_symm]
  · unfold challengerScore
    rw [challengerSumSq_symm]
  · unfold complementScore coreAlignment operationalDiversity
    rw [coreSumSq_symm, opSumSq_symm]

/-! ## C2: every mode's score lies in [0, 1] on bounded compass vectors -/

lemma diff_sq_le_four {x y : ℝ} (hx : |x| ≤ 1) (hy : |y| ≤ 1) : (x - y) ^ 2 ≤ 4 := by
  obtain ⟨hx1, hx2⟩ := abs_le.mp hx
  obtain ⟨hy1, hy2⟩ := abs_le.mp hy
  nlinarith

lemma sumSq_le_card (axlist : List Axis) {a b : DimsR}
    (ha : ∀ ax : Axis, |getDim a (axisStr ax)| ≤ 1)
    (hb : ∀ ax : Axis, |getDim b (axisStr ax)| ≤ 1) :
    (axlist.map fun ax => (getDim a (axisStr ax) - getDim b (axisStr ax)) ^ 2).sum ≤
      (axlist.length : ℝ) * 4 := by
  induction axlist with
  | nil => simp
  | cons hd t ih =>
    simp only [List.map_cons, List.sum_cons, List.length_cons]
    have h1 : (getDim a (axisStr hd) - getDim b (axisStr hd)) ^ 2 ≤ 4 :=
      diff_sq_le_four (ha hd) (hb hd)
    push_cast
    linarith

lemma sumSq_nonneg (axlist : List Axis) (f : Axis → ℝ) :
    0 ≤ (axlist.map fun ax => (f ax) ^ 2).sum :=
  List.sum_nonneg fun x hx => by
    obtain ⟨ax, _, rfl⟩ := List.mem_map.mp hx
    exact sq_nonneg _

lemma mirrorScore_mem_unit (a b : DimsR) :
    0 ≤ mirrorScore a b ∧ mirrorScore a b ≤ 1 := by
  constructor
  · exact le_max_left 0 _
  · apply max_le (by norm_num)
    exact sub_le_self 1 (div_nonneg (Real.sqrt_nonneg _) (Real.sqrt_nonneg _))

lemma challengerScore_mem_unit (a b : DimsR) :
    0 ≤ challengerScore a b ∧ challengerScore a b ≤ 1 := by
  constructor
  · exact le_max_left 0 _
  · apply max_le (by norm_num)
    exact sub_le_self 1 (div_nonneg (Real.sqrt_nonneg _) (Real.sqrt_nonneg _))

lemma maxCoreDistance_eq : maxCoreDistance = Real.sqrt 8 := by
  norm_num [maxCoreDistance, coreAxes]

lemma maxOpDistance_eq : maxOpDistance = Real.sqrt 24 := by
  norm_num [maxOpDistance, operationalAxes]

lemma coreAlignment_nonneg {a b : DimsR}
    (ha : ∀ ax : Axis, |getDim a (axisStr ax)| ≤ 1)
    (hb : ∀ ax : Axis, |getDim b (axisStr ax)| ≤ 1) :
    0 ≤ coreAlignment a b := by
  have hsum : coreSumSq a b ≤ 8 := by
    have h := sumSq_le_card coreAxes ha hb
    have hlen : ((coreAxes.length : ℕ) : ℝ) * 4 = 8 := by norm_num [coreAxes]
    unfold coreSumSq
    exact le_trans h (le_of_eq hlen)
  have hq : Real.sqrt (coreSumSq a b) / maxCoreDistance ≤ 1 := by
    rw [maxCoreDistance_eq, div_le_one (Real.sqrt_pos.mpr (by norm_num))]
    exact Real.sqrt_le_sqrt hsum
  unfold coreAlignment
  linarith

lemma coreAlignment_le_one (a b : DimsR) : coreAlignment a b ≤ 1 :=
  sub_le_self 1 (div_nonneg (Real.sqrt_nonneg _) (Real.sqrt_nonneg _))

lemma operationalDiversity_nonneg (a b : DimsR) : 0 ≤ operationalDiversity a b :=
  div_nonneg (Real.sqrt_nonneg _) (Real.sqrt_nonneg _)

lemma operationalDiversity_le_one {a b : DimsR}
    (ha : ∀ ax : Axis, |getDim a (axisStr ax)| ≤ 1)
    (hb : ∀ ax : Axis, |getDim b (axisStr ax)| ≤ 1) :
    operationalDiversity a b ≤ 1 := by
  have hsum : opSumSq a b ≤ 24 := by
    have h := sumSq_le_card operationalAxes ha hb
    have hlen : ((operationalAxes.length : ℕ) : ℝ) * 4 = 24 := by
      norm_num [operationalAxes]
    unfold opSumSq
    exact le_trans h (le_of_eq hlen)
  unfold operationalDiversity
  rw [maxOpDistance_eq, div_le_one (Real.sqrt_pos.mpr (by norm_num))]
  exact Real.sqrt_le_sqrt hsum

/-- C2: for compass vectors whose axis values all lie in [-1, 1], the match
score of every one of the three modes lies in [0, 1]. -/
theorem matchScore_bounds (a b : DimsR)
    (ha : ∀ ax : Axis, |getDim a (axisStr ax)| ≤ 1)
    (hb : ∀ ax : Axis, |getDim b (axisStr ax)| ≤ 1) :
    (0 ≤ mirrorScore a b ∧ mirrorScore a b ≤ 1) ∧
    (0 ≤ challengerScore a b ∧ challengerScore a b ≤ 1) ∧
    (0 ≤ complementScore a b ∧ complementScore a b ≤ 1) := by
  refine ⟨mirrorScore_mem_unit a b, challengerScore_mem_unit a b, ?_, ?_⟩
  · have h1 := coreAlignment_nonneg ha hb
    have h2 := operationalDiversity_nonneg a b
    unfold complementScore
    nlinarith
  · have h1 := coreAlignment_le_one a b
    have h2 := operationalDiversity_le_one ha hb
    have h3 := coreAlignment_nonneg ha hb
    have h4 := operationalDiversity_nonneg a b
    unfold complementScore
    nlinarith

lemma lookup_map_zero (s : String) :
    ∀ l : List Axis, ((l.map fun ax => (axisStr ax, (0 : ℝ))).lookup s).getD 0 = 0 := by
  intro l
  induction l with
  | nil => rfl
  | cons hd t ih =>
    simp only [List.map_cons, List.lookup]
    cases h : s == axisStr hd
    · simpa using ih
    · simp

lemma getDim_zeroDimsR (s : String) : getDim zeroDimsR s = 0 :=
  lookup_map_zero s AXES

lemma zeroDimsR_bounded : ∀ ax : Axis, |getDim zeroDimsR (axisStr ax)| ≤ 1 := by
  intro ax
  rw [getDim_zeroDimsR]
  norm_num

/-- Witness: the C2 bounds theorem applied to the all-zero compass vector
pair. -/
theorem matchScore_bounds_witness :
    (0 ≤ mirrorScore zeroDimsR zeroDimsR ∧ mirrorScore zeroDimsR zeroDimsR ≤ 1) ∧
    (0 ≤ challengerScore zeroDimsR zeroDimsR ∧ challengerScore zeroDimsR zeroDimsR ≤ 1) ∧
    (0 ≤ complementScore zeroDimsR zeroDimsR ∧ complementScore zeroDimsR zeroDimsR ≤ 1) :=
  matchScore_bounds zeroDimsR zeroDimsR zeroDimsR_bounded zeroDimsR_bounded

/-! ## C4: the complement-mode decomposition -/

/-- C4: on bounded compass vectors the complement score is exactly
`0.6 * coreAlignment + 0.4 * operationalDiversity`, with `coreAlignment`
equal to the spec's clamped closeness over the core subset
{governance, justice} and `operationalDiversity` the raw normalized
distance over the 6 operational axes; and whenever both the core and the
operational squared distances are zero the score is exactly `0.6`. -/
theorem complementScore_decomposition (a b : DimsR)
    (ha : ∀ ax : Axis, |getDim a (axisStr ax)| ≤ 1)
    (hb : ∀ ax : Axis, |getDim b (axisStr ax)| ≤ 1) :
    complementScore a b =
      0.6 * specCoreCloseness a b + 0.4 * operationalDiversity a b ∧
    (coreSumSq a b = 0 → opSumSq a b = 0 → complementScore a b = 0.6) := by
  constructor
  · have h1 : specCoreCloseness a b = coreAlignment a b :=
      max_eq_right (coreAlignment_nonneg ha hb)
    rw [h1]
    rfl
  · intro h1 h2
    unfold complementScore coreAlignment operationalDiversity
    rw [h1, h2, Real.sqrt_zero, zero_div, zero_div]
    norm_num

lemma coreSumSq_zero_self : coreSumSq zeroDimsR zeroDimsR = 0 := by
  unfold coreSumSq
  norm_num [coreAxes, getDim_zeroDimsR]

lemma opSumSq_zero_self : opSumSq zeroDimsR zeroDimsR = 0 := by
  unfold opSumSq
  norm_num [operationalAxes, getDim_zeroDimsR]

/-- Witness: the C4 theorem applied to the all-zero vector pair, whose core
and operational distances are both zero, giving a complement score of
exactly `0.6`. -/
theorem complementScore_decomposition_witness :
    complementScore zeroDimsR zeroDimsR =
      0.6 * specCoreCloseness zeroDimsR zeroDimsR +
        0.4 * operationalDiversity zeroDimsR zeroDimsR ∧
    complementScore zeroDimsR zeroDimsR = 0.6 :=
  ⟨(complementScore_decomposition zeroDimsR zeroDimsR zeroDimsR_bounded
      zeroDimsR_bounded).1,
    (complementScore_decomposition zeroDimsR zeroDimsR zeroDimsR_bounded
      zeroDimsR_bounded).2 coreSumSq_zero_self opSumSq_zero_self⟩

/-! ## Helper lemmas: the matchmaking orchestrator -/

lemma getLatestCompass_eq_none (db : DB) (uid : String)
    (h1 : db.latestSnapshot uid = none) (h2 : db.responses uid = []) :
    getLatestCompass db uid = none := by
  simp [getLatestCompass, h1, h2]

lemma scoreCandidate_eq_some {db : DB} {uid : String} {uvec : DimsR}
    {mode : MatchMode} {minT : ℝ} {c : UserRec} {r : MatchResult}
    (h : scoreCandidate db uid uvec mode minT c = some r) :
    ∃ cv, getLatestCompass db c.id = some cv ∧
      minT ≤ calculateScore uvec cv mode ∧
      r.userId = c.id ∧
      r.score = round3 (calculateScore uvec cv mode) := by
  unfold scoreCandidate at h
  split at h
  · exact absurd h (by simp)
  · rename_i cv hcv
    split at h
    · rename_i hle
      have hx := Option.some.inj h
      subst hx
      exact ⟨cv, hcv, hle, rfl, rfl⟩
    · exact absurd h (by simp)

lemma mem_candidateResults {db : DB} {uid : String} {uvec : DimsR}
    {mode : MatchMode} {minT : ℝ} {r : MatchResult}
    (h : r ∈ candidateResults db uid uvec mode minT) :
    ∃ c ∈ discoverableUsers db uid, ∃ cv,
      getLatestCompass db c.id = some cv ∧
      minT ≤ calculateScore uvec cv mode ∧
      r.userId = c.id ∧
      r.score = round3 (calculateScore uvec cv mode) := by
  obtain ⟨c, hc, hsc⟩ := List.mem_filterMap.mp h
  obtain ⟨cv, h1, h2, h3, h4⟩ := scoreCandidate_eq_some hsc
  exact ⟨c, hc, cv, h1, h2, h3, h4⟩

lemma scoreCandidate_some_of {db : DB} {uid : String} {uvec : DimsR}
    {mode : MatchMode} {minT : ℝ} {c : UserRec} {cv : DimsR}
    (hcv : getLatestCompass db c.id = some cv)
    (hle : minT ≤ calculateScore uvec cv mode) :
    ∃ r, scoreCandidate db uid uvec mode minT c = some r ∧ r.userId = c.id := by
  simp only [scoreCandidate, hcv]
  rw [if_pos hle]
  exact ⟨_, rfl, rfl⟩

lemma sortByScoreDesc_perm (l : List MatchResult) :
    List.Perm (sortByScoreDesc l) l :=
  List.perm_insertionSort byScoreDesc l

lemma sortByScoreDesc_sorted (l : List MatchResult) :
    (sortByScoreDesc l).Sorted byScoreDesc :=
  List.sorted_insertionSort byScoreDesc l

lemma findMatches_eq {db : DB} {uid : String} {mode : MatchMode} {limit : ℕ}
    {thr : Option ℝ} {uvec : DimsR} (h : getLatestCompass db uid = some uvec) :
    findMatches db uid mode limit thr =
      (sortByScoreDesc (candidateResults db uid uvec mode
        (effectiveThreshold db uid thr))).take limit := by
  simp only [findMatches, h]
  by_cases hemp : (discoverableUsers db uid).isEmpty
  · rw [if_pos hemp]
    have hnil : discoverableUsers db uid = [] := List.isEmpty_iff.mp hemp
    unfold candidateResults
    rw [hnil]
    simp [sortByScoreDesc]
  · rw [if_neg hemp]

lemma mem_findMatches {db : DB} {uid : String} {mode : MatchMode} {limit : ℕ}
    {thr : Option ℝ} {uvec : DimsR} {r : MatchResult}
    (h : getLatestCompass db uid = some uvec)
    (hr : r ∈ findMatches db uid mode limit thr) :
    ∃ c ∈ discoverableUsers db uid, ∃ cv,
      getLatestCompass db c.id = some cv ∧
      effectiveThreshold db uid thr ≤ calculateScore uvec cv mode ∧
      r.userId = c.id ∧
      r.score = round3 (calculateScore uvec cv mode) := by
  rw [findMatches_eq h] at hr
  exact mem_candidateResults
    (((sortByScoreDesc_perm _).mem_iff).mp (List.mem_of_mem_take hr))

/-! ## C8: empty requesters and empty candidates -/

/-- C8: a requester with no stored snapshot and no responses gets the empty
match list (no error, nothing scored); a user with no snapshot and no
responses has no derivable compass at all; and every returned match result
comes from a discoverable candidate with a derivable compass vector (users
without one are skipped). -/
theorem findMatches_nothing_to_match (db : DB) (uid : String) (mode : MatchMode)
    (limit : ℕ) (thr : Option ℝ) :
    (db.latestSnapshot uid = none → db.responses uid = [] →
      findMatches db uid mode limit thr = []) ∧
    (∀ x : String, db.latestSnapshot x = none → db.responses x = [] →
      getLatestCompass db x = none) ∧
    (∀ r ∈ findMatches db uid mode limit thr,
      ∃ c ∈ discoverableUsers db uid, ∃ cv, r.userId = c.id ∧
        getLatestCompass db c.id = some cv) := by
  refine ⟨fun h1 h2 => ?_, fun x h1 h2 => getLatestCompass_eq_none db x h1 h2,
    fun r hr => ?_⟩
  · simp [findMatches, getLatestCompass_eq_none db uid h1 h2]
  · cases hu : getLatestCompass db uid with
    | none =>
      have hnone : findMatches db uid mode limit thr = [] := by
        simp [findMatches, hu]
      rw [hnone] at hr
      exact absurd hr (List.not_mem_nil r)
    | some uvec =>
      obtain ⟨c, hc, cv, h1, _, h3, _⟩ := mem_findMatches hu hr
      exact ⟨c, hc, cv, h3, h1⟩

/-- Witness: the C8 theorem applied to a database with no snapshots and no
responses at all. -/
theorem findMatches_nothing_to_match_witness :
    (dbEmpty.latestSnapshot "u1" = none ∧ dbEmpty.responses "u1" = []) ∧
    findMatches dbEmpty "u1" MatchMode.mirror 10 none = [] :=
  ⟨⟨rfl, rfl⟩,
    (findMatches_nothing_to_match dbEmpty "u1" MatchMode.mirror 10 none).1 rfl rfl⟩

/-! ## C5: the threshold boundary is inclusive -/

/-- C5: every returned match comes from a pool candidate whose raw
(unrounded) score is at least the effective threshold — a candidate scoring
strictly below it never appears; and a discoverable candidate with a
derivable vector whose raw score is exactly equal to the effective
threshold is kept by the filter, and appears in the returned list whenever
the kept candidates fit within the result limit. -/
theorem findMatches_threshold_inclusive (db : DB) (uid : String) (mode : MatchMode)
    (limit : ℕ) (thr : Option ℝ) (uvec : DimsR)
    (h : getLatestCompass db uid = some uvec) :
    (∀ r ∈ findMatches db uid mode limit thr,
      ∃ c ∈ discoverableUsers db uid, ∃ cv,
        r.userId = c.id ∧ getLatestCompass db c.id = some cv ∧
        effectiveThreshold db uid thr ≤ calculateScore uvec cv mode) ∧
    (∀ c ∈ discoverableUsers db uid, ∀ cv,
      getLatestCompass db c.id = some cv →
      calculateScore uvec cv mode = effectiveThreshold db uid thr →
      (∃ r ∈ candidateResults db uid uvec mode (effectiveThreshold db uid thr),
        r.userId = c.id) ∧
      ((candidateResults db uid uvec mode (effectiveThreshold db uid thr)).length ≤
          limit →
        ∃ r ∈ findMatches db uid mode limit thr, r.userId = c.id)) := by
  constructor
  · intro r hr
    obtain ⟨c, hc, cv, h1, h2, h3, _⟩ := mem_findMatches h hr
    exact ⟨c, hc, cv, h3, h1, h2⟩
  · intro c hc cv hcv hsc
    have hle : effectiveThreshold db uid thr ≤ calculateScore uvec cv mode :=
      le_of_eq hsc.symm
    obtain ⟨r0, hs, hid⟩ := scoreCandidate_some_of hcv hle
    have hmem0 : r0 ∈ candidateResults db uid uvec mode
        (effectiveThreshold db uid thr) :=
      List.mem_filterMap.mpr ⟨c, hc, hs⟩
    refine ⟨⟨r0, hmem0, hid⟩, fun hlen => ⟨r0, ?_, hid⟩⟩
    rw [findMatches_eq h]
    rw [List.take_of_length_le]
    · exact ((sortByScoreDesc_perm _).mem_iff).mpr hmem0
    · rw [sortByScoreDesc, List.length_insertionSort]
      exact hlen

lemma mirrorSumSq_zero_self : mirrorSumSq zeroDimsR zeroDimsR = 0 := by
  unfold mirrorSumSq
  norm_num [AXES, getDim_zeroDimsR]

lemma mirrorScore_zero_self : mirrorScore zeroDimsR zeroDimsR = 1 := by
  unfold mirrorScore
  rw [mirrorSumSq_zero_self, Real.sqrt_zero, zero_div]
  norm_num

lemma getLatestCompass_dbPair_u1 : getLatestCompass dbPair "u1" = some zeroDimsR := by
  simp [getLatestCompass, dbPair]

lemma getLatestCompass_dbPair_u2 : getLatestCompass dbPair "u2" = some zeroDimsR := by
  simp [getLatestCompass, dbPair]

lemma discoverable_dbPair : discoverableUsers dbPair "u1" = [userU2] := by
  simp [discoverableUsers, dbPair, userU1, userU2]

lemma effectiveThreshold_dbPair : effectiveThreshold dbPair "u1" (some 1) = 1 := by
  simp [effectiveThreshold]

lemma score_dbPair_eq_threshold :
    calculateScore zeroDimsR zeroDimsR MatchMode.mirror =
      effectiveThreshold dbPair "u1" (some 1) := by
  rw [effectiveThreshold_dbPair]
  exact mirrorScore_zero_self

/-- Witness: the C5 theorem applied to a 2-user database where the
candidate's raw mirror score (`1`) is exactly equal to the requested
threshold (`1`); the candidate appears in the output. -/
theorem findMatches_threshold_inclusive_witness :
    calculateScore zeroDimsR zeroDimsR MatchMode.mirror =
      effectiveThreshold dbPair "u1" (some 1) ∧
    ∃ r ∈ findMatches dbPair "u1" MatchMode.mirror 10 (some 1),
      r.userId = userU2.id := by
  refine ⟨score_dbPair_eq_threshold, ?_⟩
  have h2 := (findMatches_threshold_inclusive dbPair "u1" MatchMode.mirror 10 (some 1)
    zeroDimsR getLatestCompass_dbPair_u1).2 userU2
    (by rw [discoverable_dbPair]; exact List.mem_singleton_self userU2)
    zeroDimsR getLatestCompass_dbPair_u2 score_dbPair_eq_threshold
  refine h2.2 ?_
  calc (candidateResults dbPair "u1" zeroDimsR MatchMode.mirror
      (effectiveThreshold dbPair "u1" (some 1))).length
      ≤ (discoverableUsers dbPair "u1").length := List.length_filterMap_le _ _
    _ ≤ 10 := by rw [discoverable_dbPair]; norm_num

/-! ## C10: rounded score fields, ranking, and the raw-score filter -/

lemma maxDistanceR_eq : maxDistanceR = Real.sqrt 32 := by
  norm_num [maxDistanceR, AXES]

lemma mirrorSumSq_zero_single (t : ℝ) :
    mirrorSumSq zeroDimsR [("economy", t)] = t ^ 2 := by
  unfold mirrorSumSq
  simp [AXES, getDim_zeroDimsR, getDim, List.lookup, axisStr]

lemma mirrorScore_zero_single (k : ℝ) (hk0 : 0 ≤ k) (hk1 : k ≤ 1) :
    mirrorScore zeroDimsR [("economy", Real.sqrt 32 * k)] = 1 - k := by
  unfold mirrorScore
  rw [mirrorSumSq_zero_single, maxDistanceR_eq,
    Real.sqrt_sq (mul_nonneg (Real.sqrt_nonneg _) hk0),
    mul_div_cancel_left₀ k (ne_of_gt (Real.sqrt_pos.mpr (by norm_num)))]
  exact max_eq_right (by linarith)

/-- C10 counterexample: two candidate vectors whose raw mirror scores
against the all-zero requester are `0.8796` and `0.8794` — they differ by
`0.0002`, less than the `0.001` rounding granularity, yet their stored
3-decimal score fields are `0.880` and `0.879`: such candidates do *not*
tie in the rounded-score sort. -/
theorem rounded_score_counterexample :
    |mirrorScore zeroDimsR nearDimsB - mirrorScore zeroDimsR nearDimsC| < 1 / 1000 ∧
    round3 (mirrorScore zeroDimsR nearDimsB) ≠
      round3 (mirrorScore zeroDimsR nearDimsC) := by
  have hb : mirrorScore zeroDimsR nearDimsB = 1 - 1204 / 10000 := by
    unfold nearDimsB
    exact mirrorScore_zero_single (1204 / 10000) (by norm_num) (by norm_num)
  have hc : mirrorScore zeroDimsR nearDimsC = 1 - 1206 / 10000 := by
    unfold nearDimsC
    exact mirrorScore_zero_single (1206 / 10000) (by norm_num) (by norm_num)
  constructor
  · rw [hb, hc]
    have hd : (1 - 1204 / 10000 : ℝ) - (1 - 1206 / 10000) = 2 / 10000 := by ring
    rw [hd, abs_of_nonneg (by norm_num)]
    norm_num
  · rw [hb, hc]
    unfold round3
    intro hcontra
    have h1 : round ((1 - 1204 / 10000 : ℝ) * 1000) = 880 := by norm_num [round_eq]
    have h2 : round ((1 - 1206 / 10000 : ℝ) * 1000) = 879 := by norm_num [round_eq]
    rw [h1, h2] at hcontra
    norm_num at hcontra

/-- C10 amended: every returned `MatchResult` carries a `score` field equal
to the raw mode score rounded to three decimals, while the threshold filter
uses the unrounded raw score; the ranking is the stable descending sort of
the kept candidates by the rounded score field, truncated to the limit —
so candidates whose raw scores round to the *same* 3-decimal value tie and
keep their pool order (raw scores that differ by less than the rounding
granularity may nevertheless round apart and then do not tie). -/
theorem findMatches_rounded_ranking (db : DB) (uid : String) (mode : MatchMode)
    (limit : ℕ) (thr : Option ℝ) (uvec : DimsR)
    (h : getLatestCompass db uid = some uvec) :
    (∀ r ∈ findMatches db uid mode limit thr,
      ∃ c ∈ discoverableUsers db uid, ∃ cv,
        r.userId = c.id ∧ getLatestCompass db c.id = some cv ∧
        r.score = round3 (calculateScore uvec cv mode) ∧
        effectiveThreshold db uid thr ≤ calculateScore uvec cv mode) ∧
    findMatches db uid mode limit thr =
      (sortByScoreDesc (candidateResults db uid uvec mode
        (effectiveThreshold db uid thr))).take limit ∧
    (findMatches db uid mode limit thr).Sorted byScoreDesc ∧
    (∀ r1 r2 : MatchResult,
      List.Sublist [r1, r2]
        (candidateResults db uid uvec mode (effectiveThreshold db uid thr)) →
      r1.score = r2.score →
      List.Sublist [r1, r2]
        (sortByScoreDesc (candidateResults db uid uvec mode
          (effectiveThreshold db uid thr)))) := by
  refine ⟨?_, findMatches_eq h, ?_, ?_⟩
  · intro r hr
    obtain ⟨c, hc, cv, h1, h2, h3, h4⟩ := mem_findMatches h hr
    exact ⟨c, hc, cv, h3, h1, h4, h2⟩
  · rw [findMatches_eq h]
    exact List.Pairwise.sublist (List.take_sublist _ _) (sortByScoreDesc_sorted _)
  · intro r1 r2 hsub heq
    exact List.pair_sublist_insertionSort (le_of_eq heq.symm) hsub

/-- Witness: the C10 amended theorem applied to the 2-user database. -/
theorem findMatches_rounded_ranking_witness :
    findMatches dbPair "u1" MatchMode.mirror 10 (some 1) =
      (sortByScoreDesc (candidateResults dbPair "u1" zeroDimsR MatchMode.mirror
        (effectiveThreshold dbPair "u1" (some 1)))).take 10 ∧
    (findMatches dbPair "u1" MatchMode.mirror 10 (some 1)).Sorted byScoreDesc :=
  ⟨(findMatches_rounded_ranking dbPair "u1" MatchMode.mirror 10 (some 1) zeroDimsR
      getLatestCompass_dbPair_u1).2.1,
    (findMatches_rounded_ranking dbPair "u1" MatchMode.mirror 10 (some 1) zeroDimsR
      getLatestCompass_dbPair_u1).2.2.1⟩
